import Mathlib

/-!
Shallow embedding of the query execution and density-filtering engine of
`backend/abstract/search_sphinx.py` (class `SphinxSearch`).

Python strings are modelled as Lean `String` (or `List Char` where
character-level reasoning is needed), Python ints as `Nat`, Python floats
as `ℚ` (the density arithmetic `count / num_replies * 100` is exact at the
rationals for the values the claims mention), Python `None`-able values as
`Option`.  A Python function that can raise an uncaught exception
(`ZeroDivisionError` in the density filters) returns `Option`, with `none`
standing for the propagated exception.  The external collaborators
(Sphinx connection, PostgreSQL archive, dataset/status object, job object)
are modelled as an explicit environment plus an effect record collecting
the observable calls (`update_status`, `job.finish`, `fetch_posts`,
`fetch_threads`, connection close).
-/

/-- A row returned by the Sphinx full-text index: `(post_id, thread_id)`. -/
structure SphinxPost where
  post_id : Nat
  thread_id : Nat
deriving DecidableEq

/-- Outcome of the Sphinx query `fetch_sphinx(where, replacements)`:
a result list, an `OperationalError` (timeout) or a `ProgrammingError`. -/
inductive SphinxOutcome
  | success (posts : List SphinxPost)
  | timeout
  | progError
deriving DecidableEq

/-- An archive (PostgreSQL) post row, restricted to the fields the engine
inspects. -/
structure ArchivePost where
  id : Nat
  thread_id : Nat
  board : String
  timestamp : Nat
  country_code : String
deriving DecidableEq

/-- `escape_for_sphinx`, character level: `string.replace("/", "\\/")`.
Since the pattern is a single character, Python's `str.replace` acts
independently on each character. -/
def escapeForSphinx : List Char → List Char
  | [] => []
  | c :: rest => if c = '/' then '\\' :: '/' :: escapeForSphinx rest else c :: escapeForSphinx rest

/-- `SphinxSearch.escape_for_sphinx`. -/
def escape_for_sphinx (s : String) : String :=
  (escapeForSphinx s.data).asString

/-- The per-thread body of the loop in `SphinxSearch.filter_dense`, run on
the distinct thread ids (`GROUP BY id`).  `counts` is the Counter built
from the incoming multiset of thread ids, `numReplies` the `threads`
table lookup.  `none` models the `ZeroDivisionError` Python raises when
`num_replies == 0` passes the length gate. -/
def filterDenseGo (counts : Nat → Nat) (numReplies : Nat → Nat) (percentage : ℚ)
    (len : Nat) : List Nat → Option (List Nat)
  | [] => some []
  | id :: rest =>
    if numReplies id ≥ len then
      if numReplies id = 0 then none
      else
        match filterDenseGo counts numReplies percentage len rest with
        | none => none
        | some tail =>
          if ((counts id : ℚ) / (numReplies id : ℚ) * 100 : ℚ) ≥ percentage then
            some (id :: tail)
          else some tail
    else filterDenseGo counts numReplies percentage len rest

/-- `SphinxSearch.filter_dense(thread_ids, keyword, percentage, length)`.
The keyword argument only feeds logging; the Counter over `thread_ids`
and the `threads` table (modelled as the total lookup `numReplies`)
determine the result.  `none` models an uncaught `ZeroDivisionError`. -/
def filter_dense (thread_ids : List Nat) (numReplies : Nat → Nat) (percentage : ℚ)
    (len : Nat) : Option (List Nat) :=
  filterDenseGo (fun t => thread_ids.count t) numReplies percentage len thread_ids.dedup

/-- The per-thread body of the loop in `SphinxSearch.filter_dense_country`:
same density test but with no minimum-length gate, so the division by
`num_replies` is unconditional. -/
def filterDenseCountryGo (counts : Nat → Nat) (numReplies : Nat → Nat)
    (percentage : ℚ) : List Nat → Option (List Nat)
  | [] => some []
  | id :: rest =>
    if numReplies id = 0 then none
    else
      match filterDenseCountryGo counts numReplies percentage rest with
      | none => none
      | some tail =>
        if ((counts id : ℚ) / (numReplies id : ℚ) * 100 : ℚ) ≥ percentage then
          some (id :: tail)
        else some tail

/-- `SphinxSearch.filter_dense_country(thread_ids, country, percentage)`. -/
def filter_dense_country (thread_ids : List Nat) (numReplies : Nat → Nat)
    (percentage : ℚ) : Option (List Nat) :=
  filterDenseCountryGo (fun t => thread_ids.count t) numReplies percentage thread_ids.dedup

/-! ## Query parameters and strategy selection -/

/-- The query parameter dictionary (`dataset.get_parameters()`), restricted
to the keys `SphinxSearch` reads.  `Option` models key absence (for
`random_amount` and `country_flag`, which are tested with `in`) and the
Python `None` default of `copy_to`.  Integer dates are `Nat` epoch seconds;
`0` is falsy. -/
structure QueryParams where
  min_date : Nat
  max_date : Nat
  board : String
  body_query : String
  subject_query : String
  random_amount : Option Nat
  country_flag : Option String
  full_thread : Bool
  dense_threads : Bool
  dense_percentage : ℚ
  dense_length : Nat
  dense_country_percentage : ℚ
  copy_to : Option String

/-- Python truthiness of `"random_amount" in query_parameters and
query_parameters["random_amount"]`. -/
def randomTruthy (q : QueryParams) : Bool :=
  match q.random_amount with
  | some n => n != 0
  | none => false

/-- The second branch condition of `process`: `"country_flag" in
query_parameters and query_parameters["country_flag"] != "all" and not
query_parameters["body_query"]`. -/
def countrySelected (q : QueryParams) : Bool :=
  (match q.country_flag with
   | some cf => cf != "all"
   | none => false) && (q.body_query == "")

/-- The three mutually exclusive retrieval strategies. -/
inductive Strategy
  | stringSearch
  | randomSample
  | country
deriving DecidableEq

/-- The cascading conditional of `SphinxSearch.process` (lines 66-72). -/
def selectStrategy (q : QueryParams) : Strategy :=
  if randomTruthy q then .randomSample
  else if countrySelected q then .country
  else .stringSearch

/-! ## Status messages -/

/-- Status set on an `OperationalError` (Sphinx timeout). -/
def timeoutMsg : String :=
  "Your query timed out. This is likely because it matches too many posts. Try again with a narrower date range or a more specific search query."

/-- Status set on a `ProgrammingError` (Sphinx engine / malformed query). -/
def sphinxCrashMsg : String :=
  "Error during query. 4CAT admins have been notified; try again later."

/-- Status set when the full-thread guard trips (`n` is `len(posts)`). -/
def guardMsg (n : Nat) : String :=
  "Your query returned " ++ toString n ++ " posts to fetch full thread data for - 4CAT cannot handle fetching full thread data for more than 25000 threads. Consider whether you really need full thread data, and if so, consider splitting your query into smaller periods of time or using a more precise query."

/-- `"Found %i matches. Collecting post data"`. -/
def foundMsg (n : Nat) : String :=
  "Found " ++ toString n ++ " matches. Collecting post data"

/-- `"Query finished, but no results were found."`. -/
def noResultsMsg : String :=
  "Query finished, but no results were found."

/-- `"Post data collected. %i country-specific posts found."`. -/
def countryFoundMsg (n : Nat) : String :=
  "Post data collected. " ++ toString n ++ " country-specific posts found."

/-! ## Environment and effects -/

/-- The external collaborators of one query execution: the Sphinx index
(its outcome for the built query), the `threads_*` table, the two abstract
hydration methods, the country post-filter, the `posts_*` table used by the
random and country queries, the `ORDER BY random()` shuffle, and whether the
primary results file exists when `copy_to` is handled. -/
structure Env where
  sphinxOutcome : SphinxOutcome
  numReplies : Nat → Nat
  fetchPosts : List Nat → List ArchivePost
  fetchThreads : List Nat → List ArchivePost
  countryFilter : List Nat → List Nat
  archive : List ArchivePost
  shuffle : List ArchivePost → List ArchivePost
  resultsFileExists : Bool

/-- Observable side effects of one strategy execution: `update_status`
calls in order, whether `self.sphinx.close()` ran, whether
`self.job.finish()` ran, the argument of the single `fetch_threads` /
`fetch_posts` call (if any), and whether the Sphinx index was queried. -/
structure ExecEffects where
  statuses : List String
  sphinxClosed : Bool
  jobFinished : Bool
  fetchedThreadsWith : Option (List Nat)
  fetchedPostsWith : Option (List Nat)
  sphinxQueried : Bool
deriving DecidableEq

/-- Return value of a strategy executor: a Python list, Python `None`, or
an uncaught exception propagating out (the density filters' division by
zero). -/
inductive QueryReturn
  | posts (ps : List ArchivePost)
  | noResult
  | crashed
deriving DecidableEq

/-! ## execute_string_query -/

/-- The dense-thread step of the full-thread branch of
`execute_string_query`: the thread ids that will be hydrated.  When
`dense_threads` is active (and `body_query` nonempty) they are the output
of `filter_dense`, otherwise the raw per-post thread ids. -/
def candidateThreadIds (q : QueryParams) (env : Env) (posts : List SphinxPost) :
    Option (List Nat) :=
  if q.dense_threads && q.body_query != "" then
    filter_dense (posts.map (·.thread_id)) env.numReplies q.dense_percentage q.dense_length
  else some (posts.map (·.thread_id))

/-- The exact-posts branch of `execute_string_query` (lines 195-212):
optional country filtering of the matched post ids, then `fetch_posts`. -/
def stringExactPath (q : QueryParams) (env : Env) (posts : List SphinxPost)
    (s1 : List String) : QueryReturn × ExecEffects :=
  let post_ids := posts.map (·.post_id)
  match q.country_flag with
  | some cf =>
    if cf != "all" then
      let s2 := s1 ++ ["Filtering on country-specific posts"]
      let ids2 := env.countryFilter post_ids
      if ids2.isEmpty then
        (.noResult, ⟨s2 ++ [noResultsMsg], true, false, none, none, true⟩)
      else
        (.posts (env.fetchPosts ids2), ⟨s2 ++ ["Post data collected"], true, false, none, some ids2, true⟩)
    else
      (.posts (env.fetchPosts post_ids), ⟨s1 ++ ["Post data collected"], true, false, none, some post_ids, true⟩)
  | none =>
    (.posts (env.fetchPosts post_ids), ⟨s1 ++ ["Post data collected"], true, false, none, some post_ids, true⟩)

/-- The full-thread branch of `execute_string_query` (lines 214-240):
optional dense filtering, the `> 25000` guard, then `fetch_threads`. -/
def stringThreadPath (q : QueryParams) (env : Env) (posts : List SphinxPost)
    (s1 : List String) : QueryReturn × ExecEffects :=
  let denseActive := q.dense_threads && q.body_query != ""
  let s2 := if denseActive then s1 ++ ["Post data collected. Filtering dense threads"] else s1
  match candidateThreadIds q env posts with
  | none => (.crashed, ⟨s2, true, false, none, none, true⟩)
  | some ts =>
    if denseActive && ts.isEmpty then
      (.posts [], ⟨s2, true, false, none, none, true⟩)
    else if posts.length > 25000 then
      (.noResult, ⟨s2 ++ [guardMsg posts.length], true, true, none, none, true⟩)
    else
      (.posts (env.fetchThreads ts), ⟨s2 ++ ["Post data collected"], true, false, some ts, none, true⟩)

/-- `SphinxSearch.execute_string_query`.  The Sphinx stage is modelled by
its outcome (`env.sphinxOutcome`); the two `pymysql` exception handlers,
the empty-result short circuit and the two hydration branches follow the
source line by line. -/
def execute_string_query (q : QueryParams) (env : Env) : QueryReturn × ExecEffects :=
  let s0 : List String := ["Searching for matches"]
  match env.sphinxOutcome with
  | .timeout => (.noResult, ⟨s0 ++ [timeoutMsg], true, false, none, none, true⟩)
  | .progError => (.noResult, ⟨s0 ++ [sphinxCrashMsg], true, false, none, none, true⟩)
  | .success posts =>
    let s1 := s0 ++ [foundMsg posts.length]
    if posts.isEmpty then
      (.noResult, ⟨s1 ++ [noResultsMsg], true, false, none, none, true⟩)
    else if !q.full_thread && !q.dense_threads then
      stringExactPath q env posts s1
    else
      stringThreadPath q env posts s1

/-! ## execute_random_query -/

/-- The pool scanned by the random-sample SQL query: posts on the board,
within the date window; the upper bound is added only when
`max_date > 0`. -/
def randomPool (q : QueryParams) (archive : List ArchivePost) : List ArchivePost :=
  if q.max_date > 0 then
    archive.filter (fun p =>
      p.board == q.board && decide (q.min_date ≤ p.timestamp) && decide (p.timestamp ≤ q.max_date))
  else
    archive.filter (fun p =>
      p.board == q.board && decide (q.min_date ≤ p.timestamp))

/-- `SphinxSearch.execute_random_query`: a random-order limited scan of
the archive (modelled as `env.shuffle` of the pool, then `LIMIT n`),
followed by exact-mode hydration via `fetch_posts`. -/
def execute_random_query (q : QueryParams) (env : Env) : QueryReturn × ExecEffects :=
  let n := q.random_amount.getD 0
  let post_ids := ((env.shuffle (randomPool q env.archive)).take n).map (·.id)
  (.posts (env.fetchPosts post_ids),
   ⟨["Fetching random posts", "Post data collected"], false, false, none, some post_ids, false⟩)

/-! ## execute_country_query -/

/-- The hardcoded European country-code list (lines 339-345). -/
def europeCodes : List String :=
  ["GB", "DE", "NL", "RU", "FI", "FR", "RO", "PL", "SE", "NO", "ES", "IE", "IT", "SI", "RS", "DK", "HR",
   "GR", "BG", "BE", "AT", "HU", "CH", "PT", "LT", "CZ", "EE", "UY", "LV", "SK", "MK", "UA", "IS", "BA",
   "CY", "GE", "LU", "ME", "AL", "MD", "IM", "EU", "BY", "MC", "AX", "KZ", "AM", "GG", "JE", "MT", "FO",
   "AZ", "LI", "AD"]

/-- The `country_code` comparison of the country SQL queries: the
`europe` alias uses set membership (`IN`), anything else equality. -/
def countryMatchP (cf : String) (p : ArchivePost) : Bool :=
  if cf == "europe" then europeCodes.contains p.country_code else p.country_code == cf

/-- The row set of the initial country SQL query: date window plus country
condition; the upper bound is added only when `max_date > 0`. -/
def countryPool (q : QueryParams) (cf : String) (archive : List ArchivePost) :
    List ArchivePost :=
  if q.max_date > 0 then
    archive.filter (fun p =>
      decide (q.min_date ≤ p.timestamp) && decide (p.timestamp ≤ q.max_date) && countryMatchP cf p)
  else
    archive.filter (fun p =>
      decide (q.min_date ≤ p.timestamp) && countryMatchP cf p)

/-- `SphinxSearch.execute_country_query`: initial archive scan, optional
country-density filtering, thread-mode hydration. -/
def execute_country_query (q : QueryParams) (env : Env) : QueryReturn × ExecEffects :=
  let cf := q.country_flag.getD ""
  let s0 : List String := ["Querying database for country-specific posts"]
  let posts := countryPool q cf env.archive
  if posts.isEmpty then
    (.posts [], ⟨s0, false, false, none, none, false⟩)
  else if q.dense_country_percentage != 0 then
    let s1 := s0 ++ ["Post data collected. Filtering dense threads"]
    match filter_dense_country (posts.map (·.thread_id)) env.numReplies q.dense_country_percentage with
    | none => (.crashed, ⟨s1, false, false, none, none, false⟩)
    | some ts =>
      if ts.isEmpty then (.posts [], ⟨s1, false, false, none, none, false⟩)
      else
        (.posts (env.fetchThreads ts),
         ⟨s1 ++ [countryFoundMsg (env.fetchThreads ts).length], false, false, some ts, none, false⟩)
  else
    (.posts posts, ⟨s0 ++ [countryFoundMsg posts.length], false, false, none, none, false⟩)

/-! ## process -/

/-- Effect record of a whole `process` run. -/
structure ProcResult where
  outcome : QueryReturn
  statuses : List String
  sphinxClosed : Bool
  jobFinished : Bool
  finishedRows : Option Nat
  copiedTo : Option String
  createdEmptyAt : Option String
  fetchedThreadsWith : Option (List Nat)
  fetchedPostsWith : Option (List Nat)
  sphinxQueried : Bool
deriving DecidableEq

/-- The strategy dispatch of `process` (lines 66-72). -/
def runStrategy (q : QueryParams) (env : Env) : QueryReturn × ExecEffects :=
  match selectStrategy q with
  | .randomSample => execute_random_query q env
  | .country => execute_country_query q env
  | .stringSearch => execute_string_query q env

/-- The statuses `process` adds after the strategy returns: a truthy list
gets the writing/finished pair, an empty list the no-results message,
`None` nothing. -/
def finishStatuses (ret : QueryReturn) : List String :=
  match ret with
  | .posts ps =>
    if ps.isEmpty then ["Query finished, no results found."]
    else ["Writing posts to result file", "Query finished, results are available."]
  | _ => []

/-- `num_posts = len(posts) if posts else 0`. -/
def numPosts (ret : QueryReturn) : Nat :=
  match ret with
  | .posts ps => ps.length
  | _ => 0

/-- The `copy_to` block of `process` (lines 99-108): returns
(destination copied to, destination where an empty file was created). -/
def copyOutcome (q : QueryParams) (fileExists : Bool) : Option String × Option String :=
  match q.copy_to with
  | some dest =>
    if dest == "" then (none, none)
    else if fileExists then (some dest, none) else (none, some dest)
  | none => (none, none)

/-- `SphinxSearch.process`: strategy dispatch, result statuses, chained
post-processor queueing (no modelled effect), the `copy_to` block, the
final `sphinx.close()` and `dataset.finish(num_rows=num_posts)`.  An
exception escaping the strategy executor (`.crashed`) skips all of the
post-processing. -/
def process (q : QueryParams) (env : Env) : ProcResult :=
  match (runStrategy q env).1 with
  | .crashed =>
    ⟨.crashed, (runStrategy q env).2.statuses, (runStrategy q env).2.sphinxClosed,
     (runStrategy q env).2.jobFinished, none, none, none,
     (runStrategy q env).2.fetchedThreadsWith, (runStrategy q env).2.fetchedPostsWith,
     (runStrategy q env).2.sphinxQueried⟩
  | ret =>
    ⟨ret, (runStrategy q env).2.statuses ++ finishStatuses ret, true,
     (runStrategy q env).2.jobFinished, some (numPosts ret),
     (copyOutcome q env.resultsFileExists).1, (copyOutcome q env.resultsFileExists).2,
     (runStrategy q env).2.fetchedThreadsWith, (runStrategy q env).2.fetchedPostsWith,
     (runStrategy q env).2.sphinxQueried⟩

/-! ## Predicate builder of execute_string_query -/

/-- The `match` sub-expressions (lines 150-154): `@body` and `@subject`
entries with slashes escaped, present only for nonempty inputs. -/
def matchParts (q : QueryParams) : List String :=
  (if q.body_query ≠ "" then ["@body " ++ escape_for_sphinx q.body_query] else []) ++
  (if q.subject_query ≠ "" then ["@subject " ++ escape_for_sphinx q.subject_query] else [])

/-- The `where` clause list built by `execute_string_query`
(lines 133-159), in source order. -/
def whereClauses (q : QueryParams) : List String :=
  (if q.min_date ≠ 0 then ["timestamp >= %s"] else []) ++
  (if q.max_date ≠ 0 then ["timestamp <= %s"] else []) ++
  (if q.board ≠ "" ∧ q.board ≠ "*" then ["board = %s"] else []) ++
  (if matchParts q ≠ [] then ["MATCH(%s)"] else [])

/-- The `replacements` list built alongside `whereClauses`. -/
def whereReplacements (q : QueryParams) : List String :=
  (if q.min_date ≠ 0 then [toString q.min_date] else []) ++
  (if q.max_date ≠ 0 then [toString q.max_date] else []) ++
  (if q.board ≠ "" ∧ q.board ≠ "*" then [q.board] else []) ++
  (if matchParts q ≠ [] then [String.intercalate " " (matchParts q)] else [])

/-! ## Concrete fixtures used by the witness theorems -/

/-- A full-thread query (guard witness): `full_thread` set, nothing else. -/
def wQ2 : QueryParams := ⟨0, 0, "v", "", "", none, none, true, false, 0, 0, 0, none⟩

/-- 25001 identical Sphinx rows, all in thread 1. -/
def wPosts2 : List SphinxPost := List.replicate 25001 ⟨1, 1⟩

/-- Environment whose Sphinx query finds `wPosts2`. -/
def wEnv2 : Env :=
  ⟨.success wPosts2, fun _ => 1, fun _ => [], fun _ => [], fun l => l, [], fun l => l, false⟩

/-- A plain string-search query. -/
def wQ5 : QueryParams := ⟨0, 0, "v", "skyrim", "", none, none, false, false, 0, 0, 0, none⟩

/-- Environment whose Sphinx query raises `OperationalError`. -/
def wEnvTimeout : Env :=
  ⟨.timeout, fun _ => 1, fun _ => [], fun _ => [], fun l => l, [], fun l => l, false⟩

/-- Environment whose Sphinx query raises `ProgrammingError`. -/
def wEnvProg : Env :=
  ⟨.progError, fun _ => 1, fun _ => [], fun _ => [], fun l => l, [], fun l => l, false⟩

/-- A random-sample query asking for one post. -/
def wQ8 : QueryParams := ⟨0, 0, "v", "", "", some 1, none, false, false, 0, 0, 0, none⟩

/-- A two-post archive on board `v`. -/
def wArch8 : List ArchivePost := [⟨1, 10, "v", 100, "US"⟩, ⟨2, 20, "v", 200, "DE"⟩]

/-- Environment holding `wArch8`, with identity shuffle. -/
def wEnv8 : Env :=
  ⟨.timeout, fun _ => 1, fun _ => [], fun _ => [], fun l => l, wArch8, fun l => l, false⟩

/-- A string-search query asking for a result copy at `copy.csv`. -/
def wQ9 : QueryParams := ⟨0, 0, "v", "", "", none, none, false, false, 0, 0, 0, some "copy.csv"⟩

/-- A query with both date bounds zero. -/
def wQ10 : QueryParams := ⟨0, 0, "v", "", "", none, none, false, false, 0, 0, 0, none⟩

/-- A query with a nonzero lower date bound and a zero upper date bound
(the mixed case of the spec country scenario `min_date:100, max_date:0`). -/
def wQ10b : QueryParams := ⟨100, 0, "v", "", "", none, none, false, false, 0, 0, 0, none⟩

/-- A one-post archive. -/
def wArch10 : List ArchivePost := [⟨1, 1, "v", 5, "DE"⟩]

/-! ## Helper lemmas about the density filters -/

theorem filterDenseGo_mem {counts numReplies : Nat → Nat} {percentage : ℚ} {len : Nat} :
    ∀ {l qs : List Nat}, filterDenseGo counts numReplies percentage len l = some qs →
      ∀ t, (t ∈ qs ↔ t ∈ l ∧ len ≤ numReplies t ∧
        percentage ≤ (counts t : ℚ) / (numReplies t : ℚ) * 100) := by
  intro l
  induction l with
  | nil =>
    intro qs h t
    simp only [filterDenseGo, Option.some.injEq] at h
    subst h
    simp
  | cons id rest ih =>
    intro qs h t
    simp only [filterDenseGo] at h
    by_cases hgate : numReplies id ≥ len
    · rw [if_pos hgate] at h
      by_cases hzero : numReplies id = 0
      · rw [if_pos hzero] at h
        exact absurd h (by simp)
      · rw [if_neg hzero] at h
        cases hrec : filterDenseGo counts numReplies percentage len rest with
        | none =>
          rw [hrec] at h
          exact absurd h (by simp)
        | some tail =>
          rw [hrec] at h
          dsimp only at h
          have htail := ih hrec t
          by_cases hd : ((counts id : ℚ) / (numReplies id : ℚ) * 100 : ℚ) ≥ percentage
          · rw [if_pos hd] at h
            injection h with h
            subst h
            constructor
            · intro hm
              rcases List.mem_cons.mp hm with rfl | hm'
              · exact ⟨List.mem_cons_self _ _, hgate, hd⟩
              · obtain ⟨h1, h2, h3⟩ := htail.mp hm'
                exact ⟨List.mem_cons_of_mem _ h1, h2, h3⟩
            · rintro ⟨hm, h2, h3⟩
              rcases List.mem_cons.mp hm with rfl | hm'
              · exact List.mem_cons_self _ _
              · exact List.mem_cons_of_mem _ (htail.mpr ⟨hm', h2, h3⟩)
          · rw [if_neg hd] at h
            injection h with h
            subst h
            constructor
            · intro hm
              obtain ⟨h1, h2, h3⟩ := htail.mp hm
              exact ⟨List.mem_cons_of_mem _ h1, h2, h3⟩
            · rintro ⟨hm, h2, h3⟩
              rcases List.mem_cons.mp hm with rfl | hm'
              · exact absurd h3 hd
              · exact htail.mpr ⟨hm', h2, h3⟩
    · rw [if_neg hgate] at h
      have htail := ih h t
      constructor
      · intro hm
        obtain ⟨h1, h2, h3⟩ := htail.mp hm
        exact ⟨List.mem_cons_of_mem _ h1, h2, h3⟩
      · rintro ⟨hm, h2, h3⟩
        rcases List.mem_cons.mp hm with rfl | hm'
        · exact absurd h2 hgate
        · exact htail.mpr ⟨hm', h2, h3⟩

theorem filterDenseGo_sublist {counts numReplies : Nat → Nat} {percentage : ℚ} {len : Nat} :
    ∀ {l qs : List Nat}, filterDenseGo counts numReplies percentage len l = some qs →
      qs.Sublist l := by
  intro l
  induction l with
  | nil =>
    intro qs h
    simp only [filterDenseGo, Option.some.injEq] at h
    subst h
    exact List.Sublist.refl _
  | cons id rest ih =>
    intro qs h
    simp only [filterDenseGo] at h
    by_cases hgate : numReplies id ≥ len
    · rw [if_pos hgate] at h
      by_cases hzero : numReplies id = 0
      · rw [if_pos hzero] at h
        exact absurd h (by simp)
      · rw [if_neg hzero] at h
        cases hrec : filterDenseGo counts numReplies percentage len rest with
        | none =>
          rw [hrec] at h
          exact absurd h (by simp)
        | some tail =>
          rw [hrec] at h
          dsimp only at h
          by_cases hd : ((counts id : ℚ) / (numReplies id : ℚ) * 100 : ℚ) ≥ percentage
          · rw [if_pos hd] at h
            injection h with h
            subst h
            exact List.Sublist.cons₂ _ (ih hrec)
          · rw [if_neg hd] at h
            injection h with h
            subst h
            exact List.Sublist.cons _ (ih hrec)
    · rw [if_neg hgate] at h
      exact List.Sublist.cons _ (ih h)

theorem filterDenseGo_antitone {counts numReplies : Nat → Nat} {p p' : ℚ} {len : Nat}
    (hpp : p ≤ p') :
    ∀ {l qs qs' : List Nat},
      filterDenseGo counts numReplies p len l = some qs →
      filterDenseGo counts numReplies p' len l = some qs' →
      qs' ⊆ qs := by
  intro l
  induction l with
  | nil =>
    intro qs qs' h h'
    simp only [filterDenseGo, Option.some.injEq] at h h'
    subst h
    subst h'
    exact fun a ha => ha
  | cons id rest ih =>
    intro qs qs' h h'
    simp only [filterDenseGo] at h h'
    by_cases hgate : numReplies id ≥ len
    · rw [if_pos hgate] at h h'
      by_cases hzero : numReplies id = 0
      · rw [if_pos hzero] at h
        exact absurd h (by simp)
      · rw [if_neg hzero] at h h'
        cases hrec : filterDenseGo counts numReplies p len rest with
        | none =>
          rw [hrec] at h
          exact absurd h (by simp)
        | some tail =>
          cases hrec' : filterDenseGo counts numReplies p' len rest with
          | none =>
            rw [hrec'] at h'
            exact absurd h' (by simp)
          | some tail' =>
            rw [hrec] at h
            rw [hrec'] at h'
            dsimp only at h
            dsimp only at h'
            have hsub := ih hrec hrec'
            by_cases hd' : ((counts id : ℚ) / (numReplies id : ℚ) * 100 : ℚ) ≥ p'
            · rw [if_pos hd'] at h'
              have hd : ((counts id : ℚ) / (numReplies id : ℚ) * 100 : ℚ) ≥ p :=
                le_trans hpp hd'
              rw [if_pos hd] at h
              injection h with h
              injection h' with h'
              subst h
              subst h'
              exact List.cons_subset_cons _ hsub
            · rw [if_neg hd'] at h'
              injection h' with h'
              subst h'
              by_cases hd : ((counts id : ℚ) / (numReplies id : ℚ) * 100 : ℚ) ≥ p
              · rw [if_pos hd] at h
                injection h with h
                subst h
                exact List.Subset.trans hsub (List.subset_cons_self _ _)
              · rw [if_neg hd] at h
                injection h with h
                subst h
                exact hsub
    · rw [if_neg hgate] at h h'
      exact ih h h'

theorem candidateThreadIds_length_le {q : QueryParams} {env : Env}
    {posts : List SphinxPost} {ts : List Nat}
    (h : candidateThreadIds q env posts = some ts) : ts.length ≤ posts.length := by
  unfold candidateThreadIds at h
  by_cases hcond : (q.dense_threads && q.body_query != "") = true
  · rw [if_pos hcond] at h
    unfold filter_dense at h
    have h1 := (filterDenseGo_sublist h).length_le
    have h2 := (List.dedup_sublist (posts.map (·.thread_id))).length_le
    have h3 : (posts.map (·.thread_id)).length = posts.length := List.length_map _ _
    omega
  · rw [if_neg hcond] at h
    injection h with h
    subst h
    simp [List.length_map]

theorem randomPool_sublist (q : QueryParams) (archive : List ArchivePost) :
    (randomPool q archive).Sublist archive := by
  unfold randomPool
  split
  · exact List.filter_sublist _
  · exact List.filter_sublist _

/-! ## Claim theorems -/

/-- C1: the spec demands that a thread with `num_replies = 0` never
qualifies and that its evaluation never crashes, for both density
variants and every `dense_length` including 0.  The code violates the
no-crash half: with `dense_length = 0` the keyword variant divides by
`num_replies = 0` (and the country variant always divides), raising an
uncaught `ZeroDivisionError`, modelled as `none`. -/
theorem dense_filter_zero_replies_crashes :
    filter_dense [7] (fun _ => 0) 50 0 = none ∧
    filter_dense_country [7] (fun _ => 0) 50 = none :=
  ⟨by decide, by decide⟩

/-- C2: in a string-search execution whose Sphinx result enters the
full-thread branch, if the thread ids that would be hydrated (after
optional dense filtering) number more than 25,000, the execution returns
`None` (zero results), marks the enclosing job finished, reports the
descriptive guard status, and never calls `fetch_threads`. -/
theorem guard_threads_25000 (q : QueryParams) (env : Env) (posts : List SphinxPost)
    (ts : List Nat)
    (hs : env.sphinxOutcome = .success posts)
    (hpath : q.full_thread = true ∨ q.dense_threads = true)
    (hts : candidateThreadIds q env posts = some ts)
    (hcount : 25000 < ts.length) :
    (execute_string_query q env).1 = .noResult ∧
    (execute_string_query q env).2.jobFinished = true ∧
    guardMsg posts.length ∈ (execute_string_query q env).2.statuses ∧
    (execute_string_query q env).2.fetchedThreadsWith = none := by
  have hbig : 25000 < posts.length := lt_of_lt_of_le hcount (candidateThreadIds_length_le hts)
  have hne : posts.isEmpty = false := by
    cases posts
    · simp at hbig
    · rfl
  have hflag : (!q.full_thread && !q.dense_threads) = false := by
    rcases hpath with h | h <;> simp [h]
  have htsne : ts.isEmpty = false := by
    cases ts
    · simp at hcount
    · rfl
  simp only [execute_string_query, hs, hne, Bool.false_eq_true, if_false, hflag,
    stringThreadPath, hts, htsne, Bool.and_false]
  simp [hbig, List.mem_append]

/-- Witness for C2 at a concrete input: 25,001 Sphinx rows with
`full_thread` set. -/
theorem guard_threads_25000_witness :
    (execute_string_query wQ2 wEnv2).1 = .noResult ∧
    (execute_string_query wQ2 wEnv2).2.jobFinished = true ∧
    guardMsg wPosts2.length ∈ (execute_string_query wQ2 wEnv2).2.statuses ∧
    (execute_string_query wQ2 wEnv2).2.fetchedThreadsWith = none :=
  guard_threads_25000 wQ2 wEnv2 wPosts2 (List.replicate 25001 1) rfl (Or.inl rfl)
    (by
      show some ((List.replicate 25001 (⟨1, 1⟩ : SphinxPost)).map (·.thread_id)) =
        some (List.replicate 25001 1)
      rw [List.map_replicate])
    (by rw [List.length_replicate]; norm_num)

/-- C3: exactly one strategy is selected, deterministically: random-sample
iff `random_amount` is present and nonzero; country iff random is not
selected, `country_flag` is present and not `"all"`, and `body_query` is
empty; string-search iff neither of the former applies. -/
theorem strategy_selection_exclusive (q : QueryParams) :
    (selectStrategy q = .randomSample ↔ (∃ n, q.random_amount = some n ∧ n ≠ 0)) ∧
    (selectStrategy q = .country ↔
      (¬ ∃ n, q.random_amount = some n ∧ n ≠ 0) ∧
      (∃ cf, q.country_flag = some cf ∧ cf ≠ "all") ∧ q.body_query = "") ∧
    (selectStrategy q = .stringSearch ↔
      (¬ ∃ n, q.random_amount = some n ∧ n ≠ 0) ∧
      ¬ ((∃ cf, q.country_flag = some cf ∧ cf ≠ "all") ∧ q.body_query = "")) := by
  have hr : randomTruthy q = true ↔ (∃ n, q.random_amount = some n ∧ n ≠ 0) := by
    unfold randomTruthy
    cases q.random_amount <;> simp
  have hcs : countrySelected q = true ↔
      ((∃ cf, q.country_flag = some cf ∧ cf ≠ "all") ∧ q.body_query = "") := by
    unfold countrySelected
    cases q.country_flag <;> simp
  refine ⟨?_, ?_, ?_⟩
  · rw [← hr]
    unfold selectStrategy
    cases h1 : randomTruthy q <;> cases h2 : countrySelected q <;> simp [h1, h2]
  · rw [← hr, ← hcs]
    unfold selectStrategy
    cases h1 : randomTruthy q <;> cases h2 : countrySelected q <;> simp [h1, h2]
  · rw [← hr, ← hcs]
    unfold selectStrategy
    cases h1 : randomTruthy q <;> cases h2 : countrySelected q <;> simp [h1, h2]

/-- C4: a thread qualifies in `filter_dense` iff it occurs in the input
multiset, its reply count meets the minimum length (inclusive), and its
occurrence density `count / num_replies * 100` meets the percentage
threshold (inclusive), whenever the filter evaluates without crashing. -/
theorem filter_dense_mem_spec (thread_ids : List Nat) (numReplies : Nat → Nat)
    (percentage : ℚ) (len : Nat) (qs : List Nat)
    (h : filter_dense thread_ids numReplies percentage len = some qs) (t : Nat) :
    t ∈ qs ↔ t ∈ thread_ids ∧ numReplies t ≥ len ∧
      (thread_ids.count t : ℚ) / (numReplies t : ℚ) * 100 ≥ percentage := by
  unfold filter_dense at h
  have := filterDenseGo_mem h t
  simpa [List.mem_dedup, ge_iff_le] using this

/-- Witness for C4: `dense_length = 5`, `dense_percentage = 50`,
`num_replies = 10`; a thread with 4 occurrences is excluded and one with
5 occurrences is included. -/
theorem filter_dense_mem_spec_witness :
    ((1 ∈ ([] : List Nat)) ↔
      (1 ∈ List.replicate 4 1 ∧ (10 : Nat) ≥ 5 ∧
        ((List.replicate 4 1).count 1 : ℚ) / ((10 : Nat) : ℚ) * 100 ≥ 50)) ∧
    ((1 ∈ ([1] : List Nat)) ↔
      (1 ∈ List.replicate 5 1 ∧ (10 : Nat) ≥ 5 ∧
        ((List.replicate 5 1).count 1 : ℚ) / ((10 : Nat) : ℚ) * 100 ≥ 50)) := by
  constructor
  · refine filter_dense_mem_spec (List.replicate 4 1) (fun _ => 10) 50 5 [] ?_ 1
    have hd : List.dedup (List.replicate 4 1) = [1] := by decide
    have hcnt : (List.replicate 4 1).count 1 = 4 := by decide
    unfold filter_dense
    rw [hd]
    norm_num [filterDenseGo, hcnt]
  · refine filter_dense_mem_spec (List.replicate 5 1) (fun _ => 10) 50 5 [1] ?_ 1
    have hd : List.dedup (List.replicate 5 1) = [1] := by decide
    have hcnt : (List.replicate 5 1).count 1 = 5 := by decide
    unfold filter_dense
    rw [hd]
    norm_num [filterDenseGo, hcnt]

/-- C5: in a string-search execution, a Sphinx timeout
(`OperationalError`) yields the narrow-your-query status, an engine /
malformed-query failure (`ProgrammingError`) yields the generic
retry-later status; the two messages are distinct, neither outcome is an
uncaught exception, the Sphinx connection is closed, and both complete
with a finished row count of zero. -/
theorem sphinx_error_taxonomy (q : QueryParams) (env : Env)
    (hstrat : selectStrategy q = .stringSearch) :
    (env.sphinxOutcome = .timeout →
      timeoutMsg ∈ (process q env).statuses ∧
      sphinxCrashMsg ∉ (process q env).statuses ∧
      (process q env).sphinxClosed = true ∧
      (process q env).outcome = .noResult ∧
      (process q env).finishedRows = some 0) ∧
    (env.sphinxOutcome = .progError →
      sphinxCrashMsg ∈ (process q env).statuses ∧
      timeoutMsg ∉ (process q env).statuses ∧
      (process q env).sphinxClosed = true ∧
      (process q env).outcome = .noResult ∧
      (process q env).finishedRows = some 0) ∧
    timeoutMsg ≠ sphinxCrashMsg := by
  refine ⟨fun h => ?_, fun h => ?_, by decide⟩
  · have hps : (process q env).statuses = ["Searching for matches", timeoutMsg] ∧
        (process q env).sphinxClosed = true ∧ (process q env).outcome = .noResult ∧
        (process q env).finishedRows = some 0 := by
      simp [process, runStrategy, hstrat, execute_string_query, h, finishStatuses, numPosts]
    refine ⟨?_, ?_, hps.2.1, hps.2.2.1, hps.2.2.2⟩
    · rw [hps.1]
      decide
    · rw [hps.1]
      decide
  · have hps : (process q env).statuses = ["Searching for matches", sphinxCrashMsg] ∧
        (process q env).sphinxClosed = true ∧ (process q env).outcome = .noResult ∧
        (process q env).finishedRows = some 0 := by
      simp [process, runStrategy, hstrat, execute_string_query, h, finishStatuses, numPosts]
    refine ⟨?_, ?_, hps.2.1, hps.2.2.1, hps.2.2.2⟩
    · rw [hps.1]
      decide
    · rw [hps.1]
      decide

/-- Witness for C5 at concrete inputs: timeout and engine-error
environments for a plain string query. -/
theorem sphinx_error_taxonomy_witness :
    timeoutMsg ∈ (process wQ5 wEnvTimeout).statuses ∧
    (process wQ5 wEnvTimeout).finishedRows = some 0 ∧
    sphinxCrashMsg ∈ (process wQ5 wEnvProg).statuses ∧
    (process wQ5 wEnvProg).finishedRows = some 0 := by
  refine ⟨?_, ?_, ?_, ?_⟩
  · exact ((sphinx_error_taxonomy wQ5 wEnvTimeout rfl).1 rfl).1
  · exact ((sphinx_error_taxonomy wQ5 wEnvTimeout rfl).1 rfl).2.2.2.2
  · exact ((sphinx_error_taxonomy wQ5 wEnvProg rfl).2.1 rfl).1
  · exact ((sphinx_error_taxonomy wQ5 wEnvProg rfl).2.1 rfl).2.2.2.2

/-- C6: the Sphinx escaping turns every forward slash into
backslash-slash and leaves all other characters unaltered; in particular
it is the identity on slash-free strings. -/
theorem escape_for_sphinx_spec (s : List Char) :
    escapeForSphinx s = s.flatMap (fun c => if c = '/' then ['\\', '/'] else [c]) ∧
    ('/' ∉ s → escapeForSphinx s = s) := by
  constructor
  · induction s with
    | nil => rfl
    | cons c rest ih =>
      by_cases h : c = '/' <;> simp [escapeForSphinx, h, ih]
  · induction s with
    | nil => intro _; rfl
    | cons c rest ih =>
      intro hs
      have hc : ¬ c = '/' := fun hc => hs (hc ▸ List.mem_cons_self _ _)
      have hrest : '/' ∉ rest := fun hm => hs (List.mem_cons_of_mem _ hm)
      simp only [escapeForSphinx, if_neg hc]
      rw [ih hrest]

/-- Witness for C6: `a/b` gains a backslash, a slash-free string is
unchanged. -/
theorem escape_for_sphinx_spec_witness :
    escapeForSphinx ['a', '/', 'b'] =
      ['a', '/', 'b'].flatMap (fun c => if c = '/' then ['\\', '/'] else [c]) ∧
    escapeForSphinx ['a', 'b'] = ['a', 'b'] :=
  ⟨(escape_for_sphinx_spec ['a', '/', 'b']).1,
   (escape_for_sphinx_spec ['a', 'b']).2 (by decide)⟩

/-- C7: raising the percentage threshold never adds a qualifying thread:
for a fixed input multiset, reply-count table and minimum length, the
qualifying set at a higher `dense_percentage` is a subset of the one at a
lower `dense_percentage`. -/
theorem filter_dense_antitone (thread_ids : List Nat) (numReplies : Nat → Nat)
    (p p' : ℚ) (len : Nat) (qs qs' : List Nat) (hpp : p ≤ p')
    (h : filter_dense thread_ids numReplies p len = some qs)
    (h' : filter_dense thread_ids numReplies p' len = some qs') :
    qs' ⊆ qs := by
  unfold filter_dense at h h'
  exact filterDenseGo_antitone hpp h h'

/-- Witness for C7: at threshold 50 the thread qualifies, at 60 the
qualifying set shrinks to a subset. -/
theorem filter_dense_antitone_witness :
    (([] : List Nat) ⊆ [1]) ∧ ((50 : ℚ) ≤ 60) := by
  refine ⟨?_, by norm_num⟩
  refine filter_dense_antitone [1, 1, 1, 1, 1] (fun _ => 10) 50 60 5 [1] [] (by norm_num) ?_ ?_
  · have hd : List.dedup [1, 1, 1, 1, 1] = [1] := by decide
    have hcnt : List.count 1 [1, 1, 1, 1, 1] = 5 := by decide
    unfold filter_dense
    rw [hd]
    norm_num [filterDenseGo, hcnt]
  · have hd : List.dedup [1, 1, 1, 1, 1] = [1] := by decide
    have hcnt : List.count 1 [1, 1, 1, 1, 1] = 5 := by decide
    unfold filter_dense
    rw [hd]
    norm_num [filterDenseGo, hcnt]

/-- C8: a random-sample execution whose qualifying pool (board and date
predicates) holds at least `random_amount = n` posts fetches exactly `n`
distinct post identifiers, each belonging to the pool, hydrates them in
exact mode (`fetch_posts`) and never touches the Sphinx index or
`fetch_threads`.  The `ORDER BY random()` scan is modelled as an
arbitrary permutation of the pool followed by `LIMIT n`. -/
theorem random_query_spec (q : QueryParams) (env : Env) (n : Nat)
    (hn : q.random_amount = some n)
    (hpool : n ≤ (randomPool q env.archive).length)
    (hperm : (env.shuffle (randomPool q env.archive)).Perm (randomPool q env.archive))
    (hnodup : (env.archive.map (·.id)).Nodup) :
    ∃ ids : List Nat,
      (execute_random_query q env).2.fetchedPostsWith = some ids ∧
      (execute_random_query q env).1 = .posts (env.fetchPosts ids) ∧
      ids.length = n ∧ ids.Nodup ∧
      (∀ i ∈ ids, ∃ p ∈ randomPool q env.archive, p.id = i) ∧
      (execute_random_query q env).2.sphinxQueried = false ∧
      (execute_random_query q env).2.fetchedThreadsWith = none := by
  refine ⟨((env.shuffle (randomPool q env.archive)).take n).map (·.id),
    ?_, ?_, ?_, ?_, ?_, rfl, rfl⟩
  · simp [execute_random_query, hn]
  · simp [execute_random_query, hn]
  · rw [List.length_map, List.length_take, hperm.length_eq]
    exact min_eq_left hpool
  · have hpoolmap : ((randomPool q env.archive).map (·.id)).Nodup :=
      List.Nodup.sublist (List.Sublist.map _ (randomPool_sublist q env.archive)) hnodup
    have hshufmap : ((env.shuffle (randomPool q env.archive)).map (·.id)).Nodup :=
      (List.Perm.nodup_iff (List.Perm.map _ hperm)).mpr hpoolmap
    rw [List.map_take]
    exact List.Nodup.sublist (List.take_sublist _ _) hshufmap
  · intro i hi
    rw [List.map_take] at hi
    have hi' : i ∈ (env.shuffle (randomPool q env.archive)).map (·.id) :=
      (List.take_sublist _ _).subset hi
    obtain ⟨p, hp, rfl⟩ := List.mem_map.mp hi'
    exact ⟨p, hperm.subset hp, rfl⟩

/-- Witness for C8: one post drawn from a two-post pool. -/
theorem random_query_spec_witness :
    ∃ ids : List Nat,
      (execute_random_query wQ8 wEnv8).2.fetchedPostsWith = some ids ∧
      (execute_random_query wQ8 wEnv8).1 = .posts (wEnv8.fetchPosts ids) ∧
      ids.length = 1 ∧ ids.Nodup ∧
      (∀ i ∈ ids, ∃ p ∈ randomPool wQ8 wEnv8.archive, p.id = i) ∧
      (execute_random_query wQ8 wEnv8).2.sphinxQueried = false ∧
      (execute_random_query wQ8 wEnv8).2.fetchedThreadsWith = none :=
  random_query_spec wQ8 wEnv8 1 rfl (by decide) (List.Perm.refl _) (by decide)

/-- C9: when a `copy_to` destination is requested, a completed execution
leaves a file at the destination: the primary result artifact is copied
there when it exists, and an empty file is created there when it does
not. -/
theorem copy_to_destination_exists (q : QueryParams) (env : Env) (dest : String)
    (hc : q.copy_to = some dest) (hd : dest ≠ "")
    (hnc : (process q env).outcome ≠ .crashed) :
    if env.resultsFileExists then (process q env).copiedTo = some dest
    else (process q env).createdEmptyAt = some dest := by
  have hb : (dest == "") = false := beq_eq_false_iff_ne.mpr hd
  unfold process at hnc ⊢
  cases hr : (runStrategy q env).1 with
  | crashed =>
    rw [hr] at hnc
    simp at hnc
  | posts ps =>
    cases henv : env.resultsFileExists <;> simp [copyOutcome, hc, hb, henv]
  | noResult =>
    cases henv : env.resultsFileExists <;> simp [copyOutcome, hc, hb, henv]

/-- Witness for C9: a string query with no results file still creates an
empty file at the requested destination. -/
theorem copy_to_destination_exists_witness :
    (process wQ9 wEnvTimeout).createdEmptyAt = some "copy.csv" :=
  copy_to_destination_exists wQ9 wEnvTimeout "copy.csv" rfl (by decide) (by decide)

/-- C10: a date bound of 0 imposes no timestamp restriction,
independently per bound: the string-search predicate builder omits the
corresponding clause when the value is falsy, and in the random and
country scans a zero `max_date` leaves membership governed only by the
board / country condition and the lower bound, while a zero `min_date`
leaves it governed only by the board / country condition and the
(conditional) upper bound, since `timestamp >= 0` is vacuous. -/
theorem date_zero_unbounded (q : QueryParams) (archive : List ArchivePost) (cf : String) :
    (q.min_date = 0 → "timestamp >= %s" ∉ whereClauses q) ∧
    (q.max_date = 0 → "timestamp <= %s" ∉ whereClauses q) ∧
    (q.min_date = 0 → ∀ p, p ∈ randomPool q archive ↔
      p ∈ archive ∧ p.board = q.board ∧ (q.max_date > 0 → p.timestamp ≤ q.max_date)) ∧
    (q.max_date = 0 → ∀ p, p ∈ randomPool q archive ↔
      p ∈ archive ∧ p.board = q.board ∧ q.min_date ≤ p.timestamp) ∧
    (q.min_date = 0 → ∀ p, p ∈ countryPool q cf archive ↔
      p ∈ archive ∧ countryMatchP cf p = true ∧ (q.max_date > 0 → p.timestamp ≤ q.max_date)) ∧
    (q.max_date = 0 → ∀ p, p ∈ countryPool q cf archive ↔
      p ∈ archive ∧ q.min_date ≤ p.timestamp ∧ countryMatchP cf p = true) := by
  refine ⟨fun hmin => ?_, fun hmax => ?_, fun hmin p => ?_, fun hmax p => ?_,
    fun hmin p => ?_, fun hmax p => ?_⟩
  · unfold whereClauses
    rw [hmin]
    simp only [ne_eq, not_true_eq_false, if_false, List.nil_append]
    split_ifs <;> decide
  · unfold whereClauses
    rw [hmax]
    simp only [ne_eq, not_true_eq_false, if_false]
    split_ifs <;> decide
  · unfold randomPool
    rw [hmin]
    split
    · next hmaxpos =>
      simp only [List.mem_filter, Bool.and_eq_true, beq_iff_eq, decide_eq_true_eq]
      constructor
      · rintro ⟨ha, ⟨hb, -⟩, hts⟩
        exact ⟨ha, hb, fun _ => hts⟩
      · rintro ⟨ha, hb, hts⟩
        exact ⟨ha, ⟨hb, Nat.zero_le _⟩, hts hmaxpos⟩
    · next hmaxneg =>
      simp only [List.mem_filter, Bool.and_eq_true, beq_iff_eq, decide_eq_true_eq]
      constructor
      · rintro ⟨ha, hb, -⟩
        exact ⟨ha, hb, fun hm => absurd hm hmaxneg⟩
      · rintro ⟨ha, hb, -⟩
        exact ⟨ha, hb, Nat.zero_le _⟩
  · unfold randomPool
    rw [hmax]
    simp only [gt_iff_lt, lt_self_iff_false, if_false, List.mem_filter, Bool.and_eq_true,
      beq_iff_eq, decide_eq_true_eq, and_assoc]
  · unfold countryPool
    rw [hmin]
    split
    · next hmaxpos =>
      simp only [List.mem_filter, Bool.and_eq_true, decide_eq_true_eq]
      constructor
      · rintro ⟨ha, ⟨-, hts⟩, hcm⟩
        exact ⟨ha, hcm, fun _ => hts⟩
      · rintro ⟨ha, hcm, hts⟩
        exact ⟨ha, ⟨Nat.zero_le _, hts hmaxpos⟩, hcm⟩
    · next hmaxneg =>
      simp only [List.mem_filter, Bool.and_eq_true, decide_eq_true_eq]
      constructor
      · rintro ⟨ha, -, hcm⟩
        exact ⟨ha, hcm, fun hm => absurd hm hmaxneg⟩
      · rintro ⟨ha, hcm, -⟩
        exact ⟨ha, Nat.zero_le _, hcm⟩
  · unfold countryPool
    rw [hmax]
    simp only [gt_iff_lt, lt_self_iff_false, if_false, List.mem_filter, Bool.and_eq_true,
      decide_eq_true_eq, and_assoc]

/-- Witness for C10: the min-clause is omitted at `min_date = 0`, and the
mixed case `min_date = 100, max_date = 0` (the spec country scenario) has
its random and country pool membership governed by board / country plus
the lower bound only. -/
theorem date_zero_unbounded_witness :
    ("timestamp >= %s" ∉ whereClauses wQ10) ∧
    ((⟨1, 1, "v", 5, "DE"⟩ : ArchivePost) ∈ randomPool wQ10b wArch10 ↔
      (⟨1, 1, "v", 5, "DE"⟩ : ArchivePost) ∈ wArch10 ∧ "v" = wQ10b.board ∧
        (100 : Nat) ≤ 5) ∧
    ((⟨1, 1, "v", 5, "DE"⟩ : ArchivePost) ∈ countryPool wQ10b "europe" wArch10 ↔
      (⟨1, 1, "v", 5, "DE"⟩ : ArchivePost) ∈ wArch10 ∧ (100 : Nat) ≤ 5 ∧
        countryMatchP "europe" ⟨1, 1, "v", 5, "DE"⟩ = true) :=
  ⟨(date_zero_unbounded wQ10 wArch10 "DE").1 rfl,
   (date_zero_unbounded wQ10b wArch10 "europe").2.2.2.1 rfl ⟨1, 1, "v", 5, "DE"⟩,
   (date_zero_unbounded wQ10b wArch10 "europe").2.2.2.2.2 rfl ⟨1, 1, "v", 5, "DE"⟩⟩
